import Mathlib

/-!
# Verification of the Bluebook citation pipeline core (`src/core.py`)

Shallow embedding of the concurrent batch-enrichment pipeline in `core.py`:

* `CoreConfig` / `CoreConfig.validate` / `get_openai_client` embed the
  `Config` class and client construction;
* `gpt4_parse_citations` embeds the best-effort LLM validation call;
* `fetch_case_data_from_court_listener` embeds the Court Listener lookup
  with its retry loop (`for attempt in range(max_retries)`), modelling the
  sequence of HTTP outcomes as an oracle `events : Nat → HttpEvent γ`
  (the event at index `i` is what the `i`-th `requests.get` call observes)
  and recording the `time.sleep` durations and the number of HTTP calls;
* `process_one` / `process_citations_batch` embed the worker body with its
  per-citation `try/except`;
* `chunks` embeds the slicing loop
  `for i in range(0, len(citations), batch_size)`;
* `check_citations` embeds the dispatcher.  Thread interleaving is
  nondeterministic in the source and only affects the order of the result
  list; the embedding fixes the canonical schedule (batches in dispatch
  order, each batch in its internal order), which represents every
  schedule up to permutation.

Exceptions are modelled as `Except PyError`; payloads returned by the two
external services are abstract types `γ` (case metadata JSON) and `β`
(LLM feedback text).
-/

namespace Bluebook

/-- A Python value in a position where a string is expected: either an
actual string, or a value of another type carrying the type name that
Python would report in the `TypeError` message. -/
inductive PyVal where
  | str (s : String)
  | other (typeName : String)
deriving DecidableEq

/-- A Python value in a position where a list of strings is expected. -/
inductive PyListVal where
  | list (items : List String)
  | other (typeName : String)
deriving DecidableEq

/-- The Python exceptions raised by the validation code in `core.py`. -/
inductive PyError where
  | typeError (msg : String)
  | valueError (msg : String)
deriving DecidableEq

/-- Python's `not s.strip()`: true iff every character is whitespace
(in particular for the empty string). -/
def isBlank (s : String) : Bool := s.toList.all Char.isWhitespace

instance {ε α : Type} [DecidableEq ε] [DecidableEq α] : DecidableEq (Except ε α)
  | .error a, .error b =>
    if h : a = b then .isTrue (by rw [h]) else .isFalse (by intro hc; cases hc; exact h rfl)
  | .error _, .ok _ => .isFalse (by intro hc; cases hc)
  | .ok _, .error _ => .isFalse (by intro hc; cases hc)
  | .ok a, .ok b =>
    if h : a = b then .isTrue (by rw [h]) else .isFalse (by intro hc; cases hc; exact h rfl)

/-- Embedding of `core.Config`: the environment-derived settings, with the
defaults hard-coded in `Config.__init__` (`BATCH_SIZE` 5, `MAX_WORKERS` 10,
`REQUEST_TIMEOUT` 30, `MAX_RETRIES` 3, credentials defaulting to the empty
string when the variable is unset). -/
structure CoreConfig where
  openai_api_key : String := ""
  court_listener_token : String := ""
  batch_size : Nat := 5
  max_workers : Nat := 10
  request_timeout : Nat := 30
  max_retries : Nat := 3
deriving DecidableEq

/-- The configuration obtained when no environment variable is set. -/
def defaultConfig : CoreConfig := {}

/-- Embedding of `Config.validate`: raises `ValueError` naming the first
missing credential, checking `OPENAI_API_KEY` then `COURT_LISTENER_TOKEN`.
(Note: nothing in `core.py` ever calls this method.) -/
def CoreConfig.validate (cfg : CoreConfig) : Except PyError Unit :=
  if cfg.openai_api_key = "" then
    .error (.valueError "OPENAI_API_KEY environment variable is required")
  else if cfg.court_listener_token = "" then
    .error (.valueError "COURT_LISTENER_TOKEN environment variable is required")
  else .ok ()

/-- Embedding of `get_openai_client`: raises `ValueError` iff
`OPENAI_API_KEY` is unset; the client object itself is abstracted to
`Unit`. -/
def get_openai_client (cfg : CoreConfig) : Except PyError Unit :=
  if cfg.openai_api_key = "" then
    .error (.valueError "OPENAI_API_KEY environment variable is required")
  else .ok ()

/-- One HTTP response as `fetch_case_data_from_court_listener` observes
it: a status code, the integer value of the `Retry-After` header if
present, and the JSON body (abstract type `γ`; only consulted on 200). -/
structure HttpResponse (γ : Type) where
  status : Nat
  retryAfter : Option Nat
  body : γ
deriving DecidableEq

/-- Outcome of one `requests.get` call: a response, or a
`requests.exceptions.RequestException`. -/
inductive HttpEvent (γ : Type) where
  | response (r : HttpResponse γ)
  | exception
deriving DecidableEq

/-- Observable trace of the retry loop: the value returned, the successive
`time.sleep` durations in seconds, and the number of `requests.get`
calls performed. -/
structure FetchTrace (γ : Type) where
  result : Option γ
  sleeps : List Nat
  calls : Nat
deriving DecidableEq

/-- Embedding of the loop `for attempt in range(max_retries)` in
`fetch_case_data_from_court_listener`.  `fuel` is the number of loop
iterations still available (`maxRetries - attempt`); each iteration
consumes exactly one event.

* status 200: return the body;
* status 429: sleep `Retry-After` (default 60) and continue;
* status ≥ 500: sleep `2 ^ attempt` unless this was the last attempt,
  and continue;
* any other status: return `None` immediately;
* request exception: like a ≥ 500 status.

Falling off the end of the loop returns `None`. -/
def fetchLoop (events : Nat → HttpEvent γ) (maxRetries : Nat) :
    Nat → Nat → FetchTrace γ
  | _, 0 => ⟨none, [], 0⟩
  | attempt, fuel + 1 =>
    match events attempt with
    | .response r =>
      if r.status = 200 then
        ⟨some r.body, [], 1⟩
      else if r.status = 429 then
        let rest := fetchLoop events maxRetries (attempt + 1) fuel
        ⟨rest.result, r.retryAfter.getD 60 :: rest.sleeps, rest.calls + 1⟩
      else if 500 ≤ r.status then
        let rest := fetchLoop events maxRetries (attempt + 1) fuel
        if attempt < maxRetries - 1 then
          ⟨rest.result, 2 ^ attempt :: rest.sleeps, rest.calls + 1⟩
        else
          ⟨rest.result, rest.sleeps, rest.calls + 1⟩
      else
        ⟨none, [], 1⟩
    | .exception =>
      let rest := fetchLoop events maxRetries (attempt + 1) fuel
      if attempt < maxRetries - 1 then
        ⟨rest.result, 2 ^ attempt :: rest.sleeps, rest.calls + 1⟩
      else
        ⟨rest.result, rest.sleeps, rest.calls + 1⟩

/-- Full observable outcome of `fetch_case_data_from_court_listener`:
the returned value or raised exception, the sleep trace, the HTTP call
count, and the `Authorization` header value built at line 143 (absent
when input validation raised before it was built). -/
structure FetchOut (γ : Type) where
  result : Except PyError (Option γ)
  sleeps : List Nat
  calls : Nat
  authHeader : Option String
deriving DecidableEq

/-- Embedding of `fetch_case_data_from_court_listener`:

* non-string citation → `TypeError`, before any network call;
* blank citation (`not citation.strip()`) → `ValueError`, before any
  network call;
* otherwise run the retry loop with `max_retries` defaulting to the
  configured value, the `Authorization` header being
  `"Token " ++ court_listener_token` (sent whether or not the token is
  set); the loop never raises, returning `None` when no 200 arrived. -/
def fetch_case_data_from_court_listener (cfg : CoreConfig) (citation : PyVal)
    (maxRetriesArg : Option Nat) (events : Nat → HttpEvent γ) : FetchOut γ :=
  match citation with
  | .other typeName =>
    ⟨.error (.typeError ("citation must be a string, got " ++ typeName)), [], 0, none⟩
  | .str s =>
    if isBlank s then
      ⟨.error (.valueError "citation cannot be empty"), [], 0, none⟩
    else
      let maxRetries := maxRetriesArg.getD cfg.max_retries
      let headers := "Token " ++ cfg.court_listener_token
      let t := fetchLoop events maxRetries 0 maxRetries
      ⟨.ok t.result, t.sleeps, t.calls, some headers⟩

/-- Outcome of the single LLM completion request inside
`gpt4_parse_citations`: the feedback content on success, or any raised
exception (timeout, API error), abstracted as `failure`. -/
inductive LLMOutcome (β : Type) where
  | success (content : β)
  | failure
deriving DecidableEq

/-- Observable outcome of `gpt4_parse_citations`: the returned value or
raised exception, and the number of completion requests issued. -/
structure Gpt4Out (β : Type) where
  result : Except PyError (Option β)
  calls : Nat
deriving DecidableEq

/-- Embedding of `gpt4_parse_citations`:

* non-list argument → `TypeError`, before any I/O;
* empty list → `ValueError`, before any I/O;
* if no client was passed and `OPENAI_API_KEY` is unset,
  `get_openai_client` raises `ValueError` before the request;
* otherwise exactly one completion request is made; an exception from it
  is caught and yields `None` — never retried, never re-raised. -/
def gpt4_parse_citations (cfg : CoreConfig) (citations : PyListVal)
    (clientProvided : Bool) (llm : LLMOutcome β) : Gpt4Out β :=
  match citations with
  | .other typeName =>
    ⟨.error (.typeError ("citations must be a list, got " ++ typeName)), 0⟩
  | .list items =>
    if items.isEmpty then
      ⟨.error (.valueError "citations list cannot be empty"), 0⟩
    else if !clientProvided && cfg.openai_api_key == "" then
      ⟨.error (.valueError "OPENAI_API_KEY environment variable is required"), 0⟩
    else
      match llm with
      | .success content => ⟨.ok (some content), 1⟩
      | .failure => ⟨.ok none, 1⟩

/-- The external-world context of one normalized citation as a worker sees
it: its `str()` text, the oracle of HTTP outcomes its Court Listener
lookup will observe, and the outcome of its LLM request. -/
structure CitEnv (β γ : Type) where
  text : String
  events : Nat → HttpEvent γ
  llm : LLMOutcome β

/-- What one iteration of the worker loop contributes: the tuple put on
the results queue, and the number of HTTP and LLM calls it performed. -/
structure WorkerOut (β γ : Type) where
  tuple : String × Option β × Option γ
  httpCalls : Nat
  llmCalls : Nat
deriving DecidableEq

/-- Embedding of one iteration of the `for citation in citations_batch`
loop in `process_citations_batch`: fetch Court Listener data, then the
GPT-4 feedback, then put `(citation, feedback, data)` on the queue; any
exception raised along the way is caught and `(citation, None, None)` is
put instead, so the loop always contributes exactly one tuple. -/
def process_one (cfg : CoreConfig) (clientProvided : Bool) (env : CitEnv β γ) :
    WorkerOut β γ :=
  let f := fetch_case_data_from_court_listener cfg (.str env.text) none env.events
  match f.result with
  | .error _ => ⟨(env.text, none, none), f.calls, 0⟩
  | .ok court_listener_data =>
    let g := gpt4_parse_citations cfg (.list [env.text]) clientProvided env.llm
    match g.result with
    | .error _ => ⟨(env.text, none, none), f.calls, g.calls⟩
    | .ok gpt4_feedback => ⟨(env.text, gpt4_feedback, court_listener_data), f.calls, g.calls⟩

/-- Embedding of `process_citations_batch`: the worker processes its batch
sequentially, contributing one tuple per citation. -/
def process_citations_batch (cfg : CoreConfig) (clientProvided : Bool)
    (batch : List (CitEnv β γ)) : List (WorkerOut β γ) :=
  batch.map (process_one cfg clientProvided)

/-- Fuel-indexed helper for `chunks`; the fuel bounds the number of loop
iterations and is instantiated with the list length. -/
def chunksAux (b : Nat) : Nat → List α → List (List α)
  | 0, _ => []
  | _ + 1, [] => []
  | fuel + 1, x :: xs => (x :: xs).take b :: chunksAux b fuel ((x :: xs).drop b)

/-- Embedding of the slicing loop
`for i in range(0, len(citations), batch_size): batch = citations[i:i+batch_size]`
for a positive step `b`: the consecutive slices of length `b` (the last
possibly shorter). -/
def chunks (b : Nat) (l : List α) : List (List α) := chunksAux b l.length l

/-- Observable outcome of `check_citations`: the returned list or raised
exception, the number of worker threads started, and the total number of
HTTP and LLM calls performed across all workers. -/
structure CheckRun (β γ : Type) where
  result : Except PyError (List (String × Option β × Option γ))
  workers : Nat
  httpCalls : Nat
  llmCalls : Nat
deriving DecidableEq

/-- Embedding of `check_citations`.  `extract` stands for the composition
`resolve_citations (get_citations (clean_text text)))` followed by `str`
on each resolved citation (an external collaborator), paired with each
citation's external-world context.

* non-string text → `TypeError`;
* blank text → empty list, nothing else happens;
* no citations extracted → empty list, nothing else happens;
* otherwise the shared client is built (`ValueError` when
  `OPENAI_API_KEY` is unset, before any worker is started);
* a `batch_size` of 0 makes `range(0, n, 0)` raise `ValueError`;
* otherwise one worker is started per `chunks batch_size` slice and the
  queue is drained after all of them are joined.  The result order shown
  is the canonical schedule; real thread interleaving permutes it. -/
def check_citations (cfg : CoreConfig) (text : PyVal) (batchSizeArg : Option Nat)
    (extract : String → List (CitEnv β γ)) : CheckRun β γ :=
  match text with
  | .other typeName =>
    ⟨.error (.typeError ("text must be a string, got " ++ typeName)), 0, 0, 0⟩
  | .str s =>
    if isBlank s then
      ⟨.ok [], 0, 0, 0⟩
    else
      let batch_size := batchSizeArg.getD cfg.batch_size
      let normalized_citations := extract s
      if normalized_citations.isEmpty then
        ⟨.ok [], 0, 0, 0⟩
      else
        match get_openai_client cfg with
        | .error e => ⟨.error e, 0, 0, 0⟩
        | .ok _ =>
          if batch_size = 0 then
            ⟨.error (.valueError "range() arg 3 must not be zero"), 0, 0, 0⟩
          else
            let batches := chunks batch_size normalized_citations
            let outs := (batches.map (process_citations_batch cfg true)).flatten
            ⟨.ok (outs.map (·.tuple)), batches.length,
              (outs.map (·.httpCalls)).sum, (outs.map (·.llmCalls)).sum⟩

example :
    fetch_case_data_from_court_listener (γ := Nat) defaultConfig (.str "410 U.S. 113")
      (some 1) (fun _ => .response ⟨429, some 2, 0⟩) =
      ⟨.ok none, [2], 1, some "Token "⟩ := by rfl

example :
    fetch_case_data_from_court_listener (γ := Nat) defaultConfig (.str "410 U.S. 113")
      (some 3) (fun i => if i < 2 then .response ⟨500, none, 0⟩ else .response ⟨200, none, 7⟩) =
      ⟨.ok (some 7), [1, 2], 3, some "Token "⟩ := by rfl

example :
    fetch_case_data_from_court_listener (γ := Nat) defaultConfig (.str "x") (some 3)
      (fun _ => .response ⟨404, none, 0⟩) = ⟨.ok none, [], 1, some "Token "⟩ := by rfl

example : isBlank "   " = true := by rfl

example : isBlank "410 U.S. 113" = false := by rfl

/-- A citation context whose lookup succeeds at once and whose LLM call
succeeds (payloads abstracted to numbers). -/
def happyEnv (t : String) : CitEnv Nat Nat :=
  ⟨t, fun _ => .response ⟨200, none, 3⟩, .success 7⟩

/-- A configuration with both credentials set. -/
def cfgFull : CoreConfig :=
  { openai_api_key := "sk-test", court_listener_token := "tok" }

example :
    check_citations cfgFull (.str "some text") (some 2)
      (fun _ => [happyEnv "a", happyEnv "b", happyEnv "c"]) =
      ⟨.ok [("a", some 7, some 3), ("b", some 7, some 3), ("c", some 7, some 3)],
        2, 3, 3⟩ := by rfl

example :
    check_citations (β := Nat) (γ := Nat) cfgFull (.str "no citations here") (some 2)
      (fun _ => []) = ⟨.ok [], 0, 0, 0⟩ := by rfl

example :
    check_citations (β := Nat) (γ := Nat) { court_listener_token := "tok" }
      (.str "text") (some 2) (fun _ => [happyEnv "a"]) =
      ⟨.error (.valueError "OPENAI_API_KEY environment variable is required"),
        0, 0, 0⟩ := by rfl

theorem chunksAux_nil (b fuel : Nat) : chunksAux b fuel ([] : List α) = [] := by
  cases fuel <;> rfl

theorem chunksAux_flatten (b : Nat) (hb : 1 ≤ b) :
    ∀ (fuel : Nat) (l : List α), l.length ≤ fuel → (chunksAux b fuel l).flatten = l := by
  intro fuel
  induction fuel with
  | zero =>
    intro l hl
    have hnil : l = [] := List.length_eq_zero.mp (Nat.le_zero.mp hl)
    subst hnil
    rfl
  | succ f ih =>
    intro l hl
    cases l with
    | nil => rfl
    | cons x xs =>
      have hdrop : ((x :: xs).drop b).length ≤ f := by
        rw [List.length_drop]
        simp only [List.length_cons] at hl ⊢
        omega
      simp only [chunksAux, List.flatten_cons, ih _ hdrop, List.take_append_drop]

/-- One step of the ceiling-division recurrence underlying the batch
count. -/
theorem ceil_div_step (b n : Nat) (hb : 1 ≤ b) (hn : 1 ≤ n) :
    (n - b + b - 1) / b + 1 = (n + b - 1) / b := by
  rcases le_or_lt n b with hnb | hbn
  · have h0 : n - b = 0 := by omega
    rw [h0]
    have hlhs : (0 + b - 1) / b = 0 := Nat.div_eq_of_lt (by omega)
    have hrhs : (n + b - 1) / b = 1 :=
      Nat.div_eq_of_lt_le (by omega) (by omega)
    omega
  · have h1 : n - b + b - 1 = n - 1 := by omega
    have h2 : n + b - 1 = n - 1 + b := by omega
    rw [h1, h2, Nat.add_div_right _ (by omega)]

theorem chunksAux_length (b : Nat) (hb : 1 ≤ b) :
    ∀ (fuel : Nat) (l : List α), l.length ≤ fuel →
      (chunksAux b fuel l).length = (l.length + b - 1) / b := by
  intro fuel
  induction fuel with
  | zero =>
    intro l hl
    have hnil : l = [] := List.length_eq_zero.mp (Nat.le_zero.mp hl)
    subst hnil
    rw [chunksAux_nil]
    simp only [List.length_nil]
    exact (Nat.div_eq_of_lt (by omega)).symm
  | succ f ih =>
    intro l hl
    cases l with
    | nil =>
      rw [chunksAux_nil]
      simp only [List.length_nil]
      exact (Nat.div_eq_of_lt (by omega)).symm
    | cons x xs =>
      have hdrop : ((x :: xs).drop b).length ≤ f := by
        rw [List.length_drop]
        simp only [List.length_cons] at hl ⊢
        omega
      simp only [chunksAux, List.length_cons, ih _ hdrop, List.length_drop]
      exact ceil_div_step b (x :: xs).length hb (by simp only [List.length_cons]; omega)

theorem chunksAux_mem (b : Nat) (hb : 1 ≤ b) :
    ∀ (fuel : Nat) (l : List α), l.length ≤ fuel →
      ∀ c ∈ chunksAux b fuel l, c.length ≤ b ∧ c ≠ [] := by
  intro fuel
  induction fuel with
  | zero =>
    intro l hl c hc
    have hnil : l = [] := List.length_eq_zero.mp (Nat.le_zero.mp hl)
    subst hnil
    cases hc
  | succ f ih =>
    intro l hl c hc
    cases l with
    | nil => cases hc
    | cons x xs =>
      have hdrop : ((x :: xs).drop b).length ≤ f := by
        rw [List.length_drop]
        simp only [List.length_cons] at hl ⊢
        omega
      simp only [chunksAux, List.mem_cons] at hc
      rcases hc with hc | hc
      · subst hc
        constructor
        · rw [List.length_take]
          exact Nat.min_le_left _ _
        · have hpos : 0 < ((x :: xs).take b).length := by
            rw [List.length_take]
            simp only [List.length_cons]
            omega
          exact List.ne_nil_of_length_pos hpos
      · exact ih _ hdrop c hc

theorem chunksAux_get_of_not_last (b : Nat) (hb : 1 ≤ b) :
    ∀ (fuel : Nat) (l : List α), l.length ≤ fuel →
      ∀ i (h : i + 1 < (chunksAux b fuel l).length),
        ((chunksAux b fuel l).get ⟨i, Nat.lt_of_succ_lt h⟩).length = b := by
  intro fuel
  induction fuel with
  | zero =>
    intro l hl i h
    have hnil : l = [] := List.length_eq_zero.mp (Nat.le_zero.mp hl)
    subst hnil
    simp [chunksAux] at h
  | succ f ih =>
    intro l hl i h
    cases l with
    | nil => simp [chunksAux] at h
    | cons x xs =>
      have hdrop : ((x :: xs).drop b).length ≤ f := by
        rw [List.length_drop]
        simp only [List.length_cons] at hl ⊢
        omega
      cases i with
      | zero =>
        simp only [chunksAux, List.length_cons] at h
        have hne : chunksAux b f ((x :: xs).drop b) ≠ [] := by
          intro hcontra
          rw [hcontra] at h
          simp at h
        have hdropne : (x :: xs).drop b ≠ [] := by
          intro hcontra
          rw [hcontra, chunksAux_nil] at hne
          exact hne rfl
        have hblt : b < (x :: xs).length := by
          by_contra hge
          exact hdropne (List.drop_eq_nil_of_le (by omega))
        simp only [chunksAux, List.get]
        rw [List.length_take]
        omega
      | succ j =>
        simp only [chunksAux, List.length_cons] at h
        simp only [chunksAux, List.get]
        exact ih _ hdrop j (by omega)

/-- The batches are consecutive slices whose concatenation is the input. -/
theorem chunks_flatten (b : Nat) (hb : 1 ≤ b) (l : List α) :
    (chunks b l).flatten = l :=
  chunksAux_flatten b hb l.length l (Nat.le_refl _)

/-- The number of batches is the ceiling of `length / b`. -/
theorem chunks_length (b : Nat) (hb : 1 ≤ b) (l : List α) :
    (chunks b l).length = (l.length + b - 1) / b :=
  chunksAux_length b hb l.length l (Nat.le_refl _)

/-- Every batch is nonempty and no larger than the batch size. -/
theorem chunks_mem (b : Nat) (hb : 1 ≤ b) (l : List α) :
    ∀ c ∈ chunks b l, c.length ≤ b ∧ c ≠ [] :=
  chunksAux_mem b hb l.length l (Nat.le_refl _)

/-- Every batch other than the last has length exactly `b`. -/
theorem chunks_get_of_not_last (b : Nat) (hb : 1 ≤ b) (l : List α)
    (i : Nat) (h : i + 1 < (chunks b l).length) :
    ((chunks b l).get ⟨i, Nat.lt_of_succ_lt h⟩).length = b :=
  chunksAux_get_of_not_last b hb l.length l (Nat.le_refl _) i h

/-- An HTTP outcome that the retry loop treats as a transient failure
with exponential backoff: a server-error status or a request
exception. -/
def isServerFailure : HttpEvent γ → Bool
  | .exception => true
  | .response r => decide (500 ≤ r.status)

/-- A transient failure at `attempt` makes one HTTP call, sleeps
`2 ^ attempt` unless this was the last attempt, and continues with the
next attempt. -/
theorem fetchLoop_failure_step (events : Nat → HttpEvent γ) (m attempt fuel : Nat)
    (hev : isServerFailure (events attempt) = true) :
    fetchLoop events m attempt (fuel + 1) =
      if attempt < m - 1 then
        ⟨(fetchLoop events m (attempt + 1) fuel).result,
          2 ^ attempt :: (fetchLoop events m (attempt + 1) fuel).sleeps,
          (fetchLoop events m (attempt + 1) fuel).calls + 1⟩
      else
        ⟨(fetchLoop events m (attempt + 1) fuel).result,
          (fetchLoop events m (attempt + 1) fuel).sleeps,
          (fetchLoop events m (attempt + 1) fuel).calls + 1⟩ := by
  cases hevm : events attempt with
  | exception => simp only [fetchLoop, hevm]
  | response r =>
    have h500 : 500 ≤ r.status := by
      rw [hevm] at hev
      exact of_decide_eq_true hev
    simp only [fetchLoop, hevm, if_neg (by omega : ¬r.status = 200),
      if_neg (by omega : ¬r.status = 429), if_pos h500]

/-- If every attempt observes a transient failure, the loop runs out of
attempts: it returns `None`, makes one HTTP call per attempt, and sleeps
`2 ^ attempt` after every attempt but the last. -/
theorem fetchLoop_all_failures (events : Nat → HttpEvent γ) (m : Nat) :
    ∀ (fuel attempt : Nat), attempt + fuel = m →
      (∀ i, attempt ≤ i → i < m → isServerFailure (events i) = true) →
      fetchLoop events m attempt fuel =
        ⟨none, (List.range' attempt (fuel - 1)).map (fun i => 2 ^ i), fuel⟩ := by
  intro fuel
  induction fuel with
  | zero => intro attempt hm hfail; rfl
  | succ f ih =>
    intro attempt hm hfail
    rw [fetchLoop_failure_step events m attempt f
      (hfail attempt (Nat.le_refl _) (by omega))]
    rw [ih (attempt + 1) (by omega) (fun i hi1 hi2 => hfail i (by omega) hi2)]
    by_cases hlast : attempt < m - 1
    · have hf1 : 1 ≤ f := by omega
      rw [if_pos hlast]
      have hrange : List.range' attempt (f + 1 - 1) =
          attempt :: List.range' (attempt + 1) (f - 1) := by
        have : f + 1 - 1 = (f - 1) + 1 := by omega
        rw [this, List.range'_succ]
      rw [hrange]
      simp
    · have hf0 : f = 0 := by omega
      subst hf0
      rw [if_neg hlast]
      simp

/-- A 429 at `attempt` makes one HTTP call, sleeps the `Retry-After`
value (60 when the header is absent), and continues with the next
attempt — consuming one attempt of the budget exactly as a failure
does. -/
theorem fetchLoop_429_step (events : Nat → HttpEvent γ) (m attempt fuel : Nat)
    (r : HttpResponse γ) (hev : events attempt = .response r) (h429 : r.status = 429) :
    fetchLoop events m attempt (fuel + 1) =
      ⟨(fetchLoop events m (attempt + 1) fuel).result,
        r.retryAfter.getD 60 :: (fetchLoop events m (attempt + 1) fuel).sleeps,
        (fetchLoop events m (attempt + 1) fuel).calls + 1⟩ := by
  simp only [fetchLoop, hev, h429]
  simp

/-- After `k` consecutive 429 responses, a 200 at attempt `k` succeeds,
having slept each `Retry-After` value (default 60) and made `k + 1`
HTTP calls. -/
theorem fetchLoop_429_run (events : Nat → HttpEvent γ) (m : Nat)
    (ra : Nat → Option Nat) (d : γ) :
    ∀ (k attempt fuel : Nat), k < fuel →
      (∀ i, i < k → ∃ body, events (attempt + i) = .response ⟨429, ra (attempt + i), body⟩) →
      (∃ ra2, events (attempt + k) = .response ⟨200, ra2, d⟩) →
      fetchLoop events m attempt fuel =
        ⟨some d, (List.range' attempt k).map (fun i => (ra i).getD 60), k + 1⟩ := by
  intro k
  induction k with
  | zero =>
    intro attempt fuel hk h429 h200
    obtain ⟨f, rfl⟩ : ∃ f, fuel = f + 1 := ⟨fuel - 1, by omega⟩
    obtain ⟨ra2, hev⟩ := h200
    simp only [Nat.add_zero] at hev
    simp only [fetchLoop, hev]
    simp
  | succ j ih =>
    intro attempt fuel hk h429 h200
    obtain ⟨f, rfl⟩ : ∃ f, fuel = f + 1 := ⟨fuel - 1, by omega⟩
    obtain ⟨body, hev⟩ := h429 0 (Nat.succ_pos j)
    simp only [Nat.add_zero] at hev
    rw [fetchLoop_429_step events m attempt f _ hev rfl]
    rw [ih (attempt + 1) f (by omega)
      (fun i hi => by
        have := h429 (i + 1) (by omega)
        rwa [show attempt + (i + 1) = attempt + 1 + i by omega] at this)
      (by rwa [show attempt + 1 + j = attempt + (j + 1) by omega])]
    rw [List.range'_succ]
    simp

/-- When the input passes validation, every call of the loop makes at
least one HTTP request. -/
theorem fetchLoop_calls_pos (events : Nat → HttpEvent γ) (m attempt fuel : Nat)
    (hf : 1 ≤ fuel) : 1 ≤ (fetchLoop events m attempt fuel).calls := by
  obtain ⟨f, rfl⟩ : ∃ f, fuel = f + 1 := ⟨fuel - 1, by omega⟩
  cases hev : events attempt with
  | exception =>
    simp only [fetchLoop, hev]
    split <;> simp
  | response r =>
    simp only [fetchLoop, hev]
    split
    · simp
    · split
      · simp
      · split
        · split <;> simp
        · simp

/-- Unfolding of `fetch_case_data_from_court_listener` once input
validation has passed: the outcome is the retry loop's trace, and the
`Authorization` header is built from the configured token. -/
theorem fetch_valid_unfold (cfg : CoreConfig) (c : String) (hc : isBlank c = false)
    (m : Nat) (events : Nat → HttpEvent γ) :
    fetch_case_data_from_court_listener cfg (.str c) (some m) events =
      ⟨.ok (fetchLoop events m 0 m).result, (fetchLoop events m 0 m).sleeps,
        (fetchLoop events m 0 m).calls, some ("Token " ++ cfg.court_listener_token)⟩ := by
  simp only [fetch_case_data_from_court_listener]
  rw [if_neg (by rw [hc]; exact Bool.false_ne_true)]
  exact rfl

/-- Any status that is not 200, not 429 and below 500 makes the loop
return `None` at once, after a single HTTP call and no sleep. -/
theorem fetchLoop_other_status (events : Nat → HttpEvent γ) (m attempt fuel : Nat)
    (r : HttpResponse γ) (hev : events attempt = .response r)
    (h200 : r.status ≠ 200) (h429 : r.status ≠ 429) (h500 : r.status < 500) :
    fetchLoop events m attempt (fuel + 1) = ⟨none, [], 1⟩ := by
  simp only [fetchLoop, hev, if_neg h200, if_neg h429,
    if_neg (by omega : ¬500 ≤ r.status)]

/-- First attempt gets a 429 with Retry-After 2, any retry would get a
200. -/
def eventsRateLimited : Nat → HttpEvent Nat
  | 0 => .response ⟨429, some 2, 0⟩
  | _ + 1 => .response ⟨200, none, 7⟩

/-- First attempt gets a 500, any retry would get a 200. -/
def eventsServerThenOk : Nat → HttpEvent Nat
  | 0 => .response ⟨500, none, 0⟩
  | _ + 1 => .response ⟨200, none, 7⟩

/-- Claim C3 counterexample: a 429 wait-and-retry consumes the
max-retries budget exactly like a failure does.  With `max_retries = 1`
and a 429 first response, the function sleeps the `Retry-After` value
but never issues the retry — the 200 that the next attempt would get is
unreachable and the call returns `None` after one HTTP request — exactly
the budget consumption a 500 first response produces (second conjunct).
Under the claim, the wait-and-retry would not count against the budget
in the way the failure does, and the retry would succeed. -/
theorem rate_limit_counts_toward_budget_counterexample :
    fetch_case_data_from_court_listener defaultConfig (.str "410 U.S. 113")
      (some 1) eventsRateLimited = ⟨.ok none, [2], 1, some "Token "⟩
    ∧ fetch_case_data_from_court_listener defaultConfig (.str "410 U.S. 113")
      (some 1) eventsServerThenOk = ⟨.ok none, [], 1, some "Token "⟩ :=
  ⟨rfl, rfl⟩

/-- Claim C3 (amended): on HTTP 429 the lookup reads the `Retry-After`
header (defaulting to 60 seconds when absent), sleeps that long, and
proceeds to the next attempt; each 429 consumes one attempt of the
max-retries budget exactly as a failure does, and the cycle repeats
until success or until the max attempts are exhausted.  Here: after `k`
consecutive 429 responses within the budget, the 200 at attempt `k`
succeeds, the sleep trace is the list of `Retry-After` values (with 60
substituted where the header was absent), and `k + 1` of the `m`
budgeted HTTP calls were consumed. -/
theorem rate_limit_waits_sleeps_and_retries (cfg : CoreConfig) (c : String)
    (hc : isBlank c = false) (m k : Nat) (hk : k < m) (events : Nat → HttpEvent γ)
    (ra : Nat → Option Nat) (d : γ)
    (h429 : ∀ i, i < k → ∃ body, events i = .response ⟨429, ra i, body⟩)
    (h200 : ∃ ra2, events k = .response ⟨200, ra2, d⟩) :
    fetch_case_data_from_court_listener cfg (.str c) (some m) events =
      ⟨.ok (some d), (List.range k).map (fun i => (ra i).getD 60), k + 1,
        some ("Token " ++ cfg.court_listener_token)⟩ := by
  rw [fetch_valid_unfold cfg c hc m events]
  rw [fetchLoop_429_run events m ra d k 0 m hk
    (by intro i hi; simpa using h429 i hi) (by simpa using h200)]
  rw [List.range_eq_range']

/-- Two rate-limited attempts (the first with a `Retry-After` header,
the second without) followed by a 200. -/
def eventsTwo429 : Nat → HttpEvent Nat
  | 0 => .response ⟨429, some 2, 0⟩
  | 1 => .response ⟨429, none, 1⟩
  | _ + 2 => .response ⟨200, none, 7⟩

/-- The `Retry-After` headers of `eventsTwo429`. -/
def raTwo : Nat → Option Nat
  | 0 => some 2
  | _ => none

theorem rate_limit_waits_sleeps_and_retries_witness :
    isBlank "410 U.S. 113" = false ∧ 2 < 3
    ∧ (∀ i, i < 2 → ∃ body, eventsTwo429 i = .response ⟨429, raTwo i, body⟩)
    ∧ (∃ ra2, eventsTwo429 2 = .response ⟨200, ra2, 7⟩)
    ∧ fetch_case_data_from_court_listener defaultConfig (.str "410 U.S. 113")
        (some 3) eventsTwo429 =
      ⟨.ok (some 7), (List.range 2).map (fun i => (raTwo i).getD 60), 3,
        some ("Token " ++ defaultConfig.court_listener_token)⟩ := by
  have h429 : ∀ i, i < 2 → ∃ body, eventsTwo429 i = .response ⟨429, raTwo i, body⟩ := by
    intro i hi
    match i, hi with
    | 0, _ => exact ⟨0, rfl⟩
    | 1, _ => exact ⟨1, rfl⟩
  have h200 : ∃ ra2, eventsTwo429 2 = .response ⟨200, ra2, 7⟩ := ⟨none, rfl⟩
  exact ⟨rfl, by omega, h429, h200,
    rate_limit_waits_sleeps_and_retries defaultConfig "410 U.S. 113" rfl 3 2
      (by omega) eventsTwo429 raTwo 7 h429 h200⟩

/-- Claim C4: on an HTTP status ≥ 500 or a network-level exception the
lookup retries with exponential backoff of `2 ^ attempt` seconds, each
such attempt counting toward the max-retries budget (whose configured
default is 3); once the budget is exhausted the function returns `None`
and never raises: an all-failure run makes exactly `m` HTTP calls,
sleeps `2 ^ 0, …, 2 ^ (m - 2)` between them, and returns `.ok none`. -/
theorem server_errors_backoff_exhaust_budget (cfg : CoreConfig) (c : String)
    (hc : isBlank c = false) (m : Nat) (hm : 1 ≤ m) (events : Nat → HttpEvent γ)
    (hfail : ∀ i, i < m → isServerFailure (events i) = true) :
    (fetch_case_data_from_court_listener cfg (.str c) (some m) events =
      ⟨.ok none, (List.range (m - 1)).map (fun i => 2 ^ i), m,
        some ("Token " ++ cfg.court_listener_token)⟩)
    ∧ defaultConfig.max_retries = 3 := by
  refine ⟨?_, rfl⟩
  rw [fetch_valid_unfold cfg c hc m events]
  rw [fetchLoop_all_failures events m m 0 (by omega) (fun i h1 h2 => hfail i h2)]
  rw [List.range_eq_range']

/-- Every attempt observes a 500. -/
def events500 : Nat → HttpEvent Nat := fun _ => .response ⟨500, none, 0⟩

theorem server_errors_backoff_exhaust_budget_witness :
    isBlank "410 U.S. 113" = false ∧ 1 ≤ 3
    ∧ (∀ i, i < 3 → isServerFailure (events500 i) = true)
    ∧ ((fetch_case_data_from_court_listener defaultConfig (.str "410 U.S. 113")
        (some 3) events500 =
        ⟨.ok none, (List.range 2).map (fun i => 2 ^ i), 3,
          some ("Token " ++ defaultConfig.court_listener_token)⟩)
      ∧ defaultConfig.max_retries = 3) :=
  ⟨rfl, by omega, fun i hi => rfl,
    server_errors_backoff_exhaust_budget defaultConfig "410 U.S. 113" rfl 3
      (by omega) events500 (fun i hi => rfl)⟩

/-- Claim C5: an HTTP 4xx status other than 429 is an immediate terminal
failure: exactly one HTTP call, no sleep, no retry, `None` returned,
nothing raised. -/
theorem client_error_terminal_no_retry (cfg : CoreConfig) (c : String)
    (hc : isBlank c = false) (m : Nat) (hm : 1 ≤ m) (events : Nat → HttpEvent γ)
    (r : HttpResponse γ) (h0 : events 0 = .response r)
    (hlo : 400 ≤ r.status) (hhi : r.status < 500) (h429 : r.status ≠ 429) :
    fetch_case_data_from_court_listener cfg (.str c) (some m) events =
      ⟨.ok none, [], 1, some ("Token " ++ cfg.court_listener_token)⟩ := by
  obtain ⟨f, rfl⟩ : ∃ f, m = f + 1 := ⟨m - 1, by omega⟩
  rw [fetch_valid_unfold cfg c hc (f + 1) events]
  rw [fetchLoop_other_status events (f + 1) 0 f r h0 (by omega) h429 hhi]

/-- Every attempt observes a 404. -/
def events404 : Nat → HttpEvent Nat := fun _ => .response ⟨404, none, 0⟩

theorem client_error_terminal_no_retry_witness :
    isBlank "410 U.S. 113" = false ∧ 1 ≤ 3
    ∧ events404 0 = .response ⟨404, none, 0⟩
    ∧ 400 ≤ 404 ∧ 404 < 500 ∧ 404 ≠ 429
    ∧ fetch_case_data_from_court_listener defaultConfig (.str "410 U.S. 113")
        (some 3) events404 =
      ⟨.ok none, [], 1, some ("Token " ++ defaultConfig.court_listener_token)⟩ :=
  ⟨rfl, by omega, rfl, by omega, by omega, by omega,
    client_error_terminal_no_retry defaultConfig "410 U.S. 113" rfl 3 (by omega)
      events404 ⟨404, none, 0⟩ rfl (by decide) (by decide) (by decide)⟩

/-- Claim C6: `fetch_case_data_from_court_listener` raises `TypeError`
for every non-string argument and `ValueError` for every blank
(empty or whitespace-only) string, in both cases with zero HTTP calls
performed, i.e. before any network request. -/
theorem fetch_rejects_bad_input_before_network (cfg : CoreConfig)
    (events : Nat → HttpEvent γ) (maxRetriesArg : Option Nat)
    (typeName s : String) (hs : isBlank s = true) :
    fetch_case_data_from_court_listener cfg (.other typeName) maxRetriesArg events =
      ⟨.error (.typeError ("citation must be a string, got " ++ typeName)), [], 0, none⟩
    ∧ fetch_case_data_from_court_listener cfg (.str s) maxRetriesArg events =
      ⟨.error (.valueError "citation cannot be empty"), [], 0, none⟩ := by
  refine ⟨rfl, ?_⟩
  simp only [fetch_case_data_from_court_listener]
  rw [if_pos hs]

theorem fetch_rejects_bad_input_before_network_witness :
    isBlank "   " = true
    ∧ (fetch_case_data_from_court_listener (γ := Nat) defaultConfig (.other "int")
        none (fun _ => .exception) =
        ⟨.error (.typeError ("citation must be a string, got " ++ "int")), [], 0, none⟩
      ∧ fetch_case_data_from_court_listener (γ := Nat) defaultConfig (.str "   ")
        none (fun _ => .exception) =
        ⟨.error (.valueError "citation cannot be empty"), [], 0, none⟩) :=
  ⟨rfl, fetch_rejects_bad_input_before_network defaultConfig (fun _ => .exception)
    none "int" "   " rfl⟩

/-- Claim C7: `gpt4_parse_citations` raises `TypeError` on a non-list
argument and `ValueError` on the empty list, both with zero completion
requests issued (before any I/O); and for every non-empty list with a
client in hand, a failure of the completion request is caught and yields
`None` after exactly one request — never retried, never raised. -/
theorem gpt4_validation_and_best_effort (cfg : CoreConfig) (typeName : String)
    (llm : LLMOutcome β) (clientProvided : Bool) (items : List String)
    (hne : items ≠ []) :
    gpt4_parse_citations cfg (.other typeName) clientProvided llm =
      ⟨.error (.typeError ("citations must be a list, got " ++ typeName)), 0⟩
    ∧ gpt4_parse_citations (β := β) cfg (.list []) clientProvided llm =
      ⟨.error (.valueError "citations list cannot be empty"), 0⟩
    ∧ gpt4_parse_citations (β := β) cfg (.list items) true .failure =
      ⟨.ok none, 1⟩ := by
  refine ⟨rfl, rfl, ?_⟩
  cases items with
  | nil => exact absurd rfl hne
  | cons x xs => rfl

theorem gpt4_validation_and_best_effort_witness :
    (["410 U.S. 113"] : List String) ≠ []
    ∧ (gpt4_parse_citations (β := Nat) defaultConfig (.other "str") true .failure =
        ⟨.error (.typeError ("citations must be a list, got " ++ "str")), 0⟩
      ∧ gpt4_parse_citations (β := Nat) defaultConfig (.list []) true .failure =
        ⟨.error (.valueError "citations list cannot be empty"), 0⟩
      ∧ gpt4_parse_citations (β := Nat) defaultConfig (.list ["410 U.S. 113"]) true
          .failure = ⟨.ok none, 1⟩) :=
  ⟨by simp, gpt4_validation_and_best_effort defaultConfig "str" .failure true
    ["410 U.S. 113"] (by simp)⟩

/-- The first component of a worker's tuple is always the citation's
text, whether or not processing raised. -/
theorem process_one_text (cfg : CoreConfig) (cp : Bool) (env : CitEnv β γ) :
    (process_one cfg cp env).tuple.1 = env.text := by
  simp only [process_one]
  cases (fetch_case_data_from_court_listener cfg (.str env.text) none env.events).result with
  | error e => rfl
  | ok md =>
    cases (gpt4_parse_citations cfg (.list [env.text]) cp env.llm).result with
    | error e => rfl
    | ok fb => rfl

/-- An exception raised by the metadata lookup inside the worker is
caught and the citation still contributes a tuple, with absent feedback
and absent metadata. -/
theorem process_one_exception_caught (cfg : CoreConfig) (cp : Bool)
    (env : CitEnv β γ) (e : PyError)
    (hf : (fetch_case_data_from_court_listener cfg (.str env.text) none
      env.events).result = .error e) :
    (process_one cfg cp env).tuple = (env.text, none, none) := by
  simp only [process_one]
  cases hres : (fetch_case_data_from_court_listener cfg (.str env.text) none
      env.events).result with
  | error e2 => rfl
  | ok md =>
    rw [hres] at hf
    exact Except.noConfusion hf

/-- Concatenating the per-batch worker outputs processes exactly the
original citation sequence, in order. -/
theorem batches_flatten_map (cfg : CoreConfig) (cp : Bool) (b : Nat) (hb : 1 ≤ b)
    (l : List (CitEnv β γ)) :
    ((chunks b l).map (process_citations_batch cfg cp)).flatten =
      l.map (process_one cfg cp) := by
  have hpcb : process_citations_batch (β := β) (γ := γ) cfg cp =
      List.map (process_one cfg cp) := rfl
  rw [hpcb, ← List.map_flatten, chunks_flatten b hb]

/-- Unfolding of `check_citations` on the happy path: non-blank text,
at least one citation, the OpenAI key set, and a positive batch size. -/
theorem check_citations_unfold (cfg : CoreConfig) (s : String) (hs : isBlank s = false)
    (hkey : cfg.openai_api_key ≠ "") (b : Nat) (hb : 1 ≤ b)
    (extract : String → List (CitEnv β γ)) (hne : (extract s).isEmpty = false) :
    check_citations cfg (.str s) (some b) extract =
      ⟨.ok ((((chunks b (extract s)).map (process_citations_batch cfg true)).flatten).map
          (fun w => w.tuple)),
        (chunks b (extract s)).length,
        ((((chunks b (extract s)).map (process_citations_batch cfg true)).flatten).map
          (fun w => w.httpCalls)).sum,
        ((((chunks b (extract s)).map (process_citations_batch cfg true)).flatten).map
          (fun w => w.llmCalls)).sum⟩ := by
  simp only [check_citations]
  rw [if_neg (by rw [hs]; exact Bool.false_ne_true)]
  rw [if_neg (by rw [hne]; exact Bool.false_ne_true)]
  have hcl : get_openai_client cfg = .ok () := by
    unfold get_openai_client
    rw [if_neg hkey]
  rw [hcl]
  rw [if_neg (show ¬(some b).getD cfg.batch_size = 0 by
    simp only [Option.getD_some]; omega)]
  exact rfl

/-- Claim C1: for input text whose normalization yields N citations,
`check_citations` returns exactly N result tuples, one per normalized
citation and in particular with the i-th tuple's citation text equal to
the i-th citation's text, so no entry is dropped or duplicated; and a
citation whose processing raises inside a worker still yields the tuple
(citation text, absent feedback, absent metadata) without aborting the
rest of its batch or any other batch (every other citation's tuple is
still `process_one` of that citation). -/
theorem one_tuple_per_citation (cfg : CoreConfig) (hkey : cfg.openai_api_key ≠ "")
    (s : String) (hs : isBlank s = false) (b : Nat) (hb : 1 ≤ b)
    (extract : String → List (CitEnv β γ)) :
    ∃ rs, (check_citations cfg (.str s) (some b) extract).result = .ok rs
      ∧ rs = (extract s).map (fun env => (process_one cfg true env).tuple)
      ∧ rs.length = (extract s).length
      ∧ rs.map (fun t => t.1) = (extract s).map (fun env => env.text)
      ∧ (∀ env : CitEnv β γ, ∀ e : PyError,
          (fetch_case_data_from_court_listener cfg (.str env.text) none
            env.events).result = .error e →
          (process_one cfg true env).tuple = (env.text, none, none)) := by
  have hcaught : ∀ env : CitEnv β γ, ∀ e : PyError,
      (fetch_case_data_from_court_listener cfg (.str env.text) none
        env.events).result = .error e →
      (process_one cfg true env).tuple = (env.text, none, none) :=
    fun env e he => process_one_exception_caught cfg true env e he
  by_cases hne : (extract s).isEmpty
  · have hext : extract s = [] := by
      cases hx : extract s with
      | nil => rfl
      | cons x xs => rw [hx] at hne; simp at hne
    refine ⟨[], ?_, by simp [hext], by simp [hext], by simp [hext], hcaught⟩
    simp only [check_citations]
    rw [if_neg (by rw [hs]; exact Bool.false_ne_true)]
    rw [hext]
    rfl
  · have hne2 : (extract s).isEmpty = false := by
      revert hne
      cases (extract s).isEmpty <;> simp
    refine ⟨((((chunks b (extract s)).map (process_citations_batch cfg true)).flatten).map
        (fun w => w.tuple)), ?_, ?_, ?_, ?_, hcaught⟩
    · rw [check_citations_unfold cfg s hs hkey b hb extract hne2]
    · rw [batches_flatten_map cfg true b hb (extract s), List.map_map]
      rfl
    · rw [batches_flatten_map cfg true b hb (extract s), List.map_map,
        List.length_map]
    · rw [batches_flatten_map cfg true b hb (extract s), List.map_map,
        List.map_map]
      exact List.map_congr_left (fun env _ => process_one_text cfg true env)

/-- A citation whose `str()` is blank: its lookup raises `ValueError`
inside the worker, which the worker catches. -/
def blankEnv : CitEnv Nat Nat := ⟨" ", fun _ => .response ⟨200, none, 3⟩, .success 7⟩

/-- Extraction yielding two processable citations around one that makes
its worker catch an exception. -/
def extractMix : String → List (CitEnv Nat Nat) :=
  fun _ => [happyEnv "410 U.S. 113", blankEnv, happyEnv "347 U.S. 483"]

theorem one_tuple_per_citation_witness :
    cfgFull.openai_api_key ≠ "" ∧ isBlank "brief" = false ∧ 1 ≤ 2
    ∧ (∃ rs, (check_citations cfgFull (.str "brief") (some 2) extractMix).result = .ok rs
      ∧ rs = (extractMix "brief").map (fun env => (process_one cfgFull true env).tuple)
      ∧ rs.length = (extractMix "brief").length
      ∧ rs.map (fun t => t.1) = (extractMix "brief").map (fun env => env.text)
      ∧ (∀ env : CitEnv Nat Nat, ∀ e : PyError,
          (fetch_case_data_from_court_listener cfgFull (.str env.text) none
            env.events).result = .error e →
          (process_one cfgFull true env).tuple = (env.text, none, none))) :=
  ⟨by decide, rfl, by omega,
    one_tuple_per_citation cfgFull (by decide) "brief" rfl 2 (by omega) extractMix⟩

/-- Extraction yielding twelve citations. -/
def extract12 : String → List (CitEnv Nat Nat) :=
  fun _ => (List.range 12).map (fun i => happyEnv (toString i))

/-- Claim C2: for batch size `b ≥ 1` the dispatcher partitions the
normalized citation sequence into `⌈N / b⌉` consecutive, non-overlapping
batches in original order (their concatenation is the sequence), each
nonempty and of size at most `b`, with every batch but the last of size
exactly `b`; it launches exactly one worker per batch; and concretely,
with batch size 5 and 12 citations, exactly 3 workers are dispatched
with batch sizes 5, 5 and 2. -/
theorem dispatcher_partitions_one_worker_per_batch (cfg : CoreConfig)
    (hkey : cfg.openai_api_key ≠ "") (s : String) (hs : isBlank s = false)
    (b : Nat) (hb : 1 ≤ b) (extract : String → List (CitEnv β γ))
    (hne : (extract s).isEmpty = false) :
    (chunks b (extract s)).flatten = extract s
    ∧ (chunks b (extract s)).length = ((extract s).length + b - 1) / b
    ∧ (∀ c ∈ chunks b (extract s), c.length ≤ b ∧ c ≠ [])
    ∧ (∀ i (h : i + 1 < (chunks b (extract s)).length),
        ((chunks b (extract s)).get ⟨i, Nat.lt_of_succ_lt h⟩).length = b)
    ∧ (check_citations cfg (.str s) (some b) extract).workers =
        (chunks b (extract s)).length
    ∧ (check_citations cfgFull (.str "brief") (some 5) extract12).workers = 3
    ∧ (chunks 5 (extract12 "brief")).map (fun c => c.length) = [5, 5, 2] := by
  refine ⟨chunks_flatten b hb _, chunks_length b hb _, chunks_mem b hb _,
    fun i h => chunks_get_of_not_last b hb _ i h, ?_, by rfl, by rfl⟩
  rw [check_citations_unfold cfg s hs hkey b hb extract hne]

theorem dispatcher_partitions_one_worker_per_batch_witness :
    cfgFull.openai_api_key ≠ "" ∧ isBlank "brief" = false ∧ 1 ≤ 5
    ∧ (extract12 "brief").isEmpty = false
    ∧ ((chunks 5 (extract12 "brief")).flatten = extract12 "brief"
      ∧ (chunks 5 (extract12 "brief")).length = ((extract12 "brief").length + 5 - 1) / 5
      ∧ (∀ c ∈ chunks 5 (extract12 "brief"), c.length ≤ 5 ∧ c ≠ [])
      ∧ (∀ i (h : i + 1 < (chunks 5 (extract12 "brief")).length),
          ((chunks 5 (extract12 "brief")).get ⟨i, Nat.lt_of_succ_lt h⟩).length = 5)
      ∧ (check_citations cfgFull (.str "brief") (some 5) extract12).workers =
          (chunks 5 (extract12 "brief")).length
      ∧ (check_citations cfgFull (.str "brief") (some 5) extract12).workers = 3
      ∧ (chunks 5 (extract12 "brief")).map (fun c => c.length) = [5, 5, 2]) :=
  ⟨by decide, rfl, by omega, rfl,
    dispatcher_partitions_one_worker_per_batch cfgFull (by decide) "brief" rfl 5
      (by omega) extract12 rfl⟩

/-- Claim C8: non-string input raises `TypeError`; for blank text and
for text from which extraction finds zero citations, `check_citations`
returns the empty list without raising, with zero workers and zero
enrichment network calls. -/
theorem zero_citations_empty_result (cfg : CoreConfig) (batchArg : Option Nat)
    (extract : String → List (CitEnv β γ)) (typeName s1 s2 : String)
    (h1 : isBlank s1 = true) (h2 : isBlank s2 = false) (hex : extract s2 = []) :
    check_citations cfg (.other typeName) batchArg extract =
      ⟨.error (.typeError ("text must be a string, got " ++ typeName)), 0, 0, 0⟩
    ∧ check_citations cfg (.str s1) batchArg extract = ⟨.ok [], 0, 0, 0⟩
    ∧ check_citations cfg (.str s2) batchArg extract = ⟨.ok [], 0, 0, 0⟩ := by
  refine ⟨rfl, ?_, ?_⟩
  · simp only [check_citations]
    rw [if_pos h1]
  · simp only [check_citations]
    rw [if_neg (by rw [h2]; exact Bool.false_ne_true)]
    rw [hex]
    rfl

/-- Extraction finding no citations. -/
def extractNone : String → List (CitEnv Nat Nat) := fun _ => []

theorem zero_citations_empty_result_witness :
    isBlank "" = true ∧ isBlank "hello world" = false
    ∧ extractNone "hello world" = []
    ∧ (check_citations defaultConfig (.other "bytes") none extractNone =
        ⟨.error (.typeError ("text must be a string, got " ++ "bytes")), 0, 0, 0⟩
      ∧ check_citations defaultConfig (.str "") none extractNone = ⟨.ok [], 0, 0, 0⟩
      ∧ check_citations defaultConfig (.str "hello world") none extractNone =
        ⟨.ok [], 0, 0, 0⟩) :=
  ⟨rfl, rfl, rfl,
    zero_citations_empty_result defaultConfig none extractNone "bytes" ""
      "hello world" rfl rfl rfl⟩

/-- Claim C10: the shared OpenAI client is built before any worker is
dispatched, so with the OpenAI key unset and at least one citation in
the text, `check_citations` raises the `ValueError` naming
`OPENAI_API_KEY` with zero workers started and zero enrichment calls
made — never a partial result list. -/
theorem missing_openai_key_raises_before_workers (cfg : CoreConfig)
    (hkey : cfg.openai_api_key = "") (s : String) (hs : isBlank s = false)
    (batchArg : Option Nat) (extract : String → List (CitEnv β γ))
    (hne : (extract s).isEmpty = false) :
    check_citations cfg (.str s) batchArg extract =
      ⟨.error (.valueError "OPENAI_API_KEY environment variable is required"),
        0, 0, 0⟩ := by
  simp only [check_citations]
  rw [if_neg (by rw [hs]; exact Bool.false_ne_true)]
  rw [if_neg (by rw [hne]; exact Bool.false_ne_true)]
  have hcl : get_openai_client cfg =
      .error (.valueError "OPENAI_API_KEY environment variable is required") := by
    unfold get_openai_client
    rw [if_pos hkey]
  rw [hcl]

/-- Court Listener token set but OpenAI key unset. -/
def cfgNoKey : CoreConfig := { court_listener_token := "tok" }

/-- Extraction yielding a single processable citation. -/
def extractOne : String → List (CitEnv Nat Nat) := fun _ => [happyEnv "410 U.S. 113"]

theorem missing_openai_key_raises_before_workers_witness :
    cfgNoKey.openai_api_key = "" ∧ isBlank "some text" = false
    ∧ (extractOne "some text").isEmpty = false
    ∧ check_citations cfgNoKey (.str "some text") (some 5) extractOne =
      ⟨.error (.valueError "OPENAI_API_KEY environment variable is required"),
        0, 0, 0⟩ :=
  ⟨rfl, rfl, rfl,
    missing_openai_key_raises_before_workers cfgNoKey rfl "some text" rfl (some 5)
      extractOne rfl⟩

/-- OpenAI key set but Court Listener token unset. -/
def cfgNoToken : CoreConfig := { openai_api_key := "sk-test" }

/-- One citation whose lookup observes a 403 (what an unauthorized
request to the case-search service gets). -/
def extract403 : String → List (CitEnv Nat Nat) :=
  fun _ => [⟨"410 U.S. 113", fun _ => .response ⟨403, none, 0⟩, .success 7⟩]

/-- Claim C9 counterexample: running the pipeline with the Court
Listener token absent (and the OpenAI key set) raises no configuration
error at all: `check_citations` runs to completion, the metadata request
is still sent (one HTTP call is made, with the bare header built from
the empty token), its 403 rejection merely degrades the metadata to
absent, and a full result list is returned.  The claim requires a
descriptive configuration error naming the missing variable before the
external call, for each required credential. -/
theorem court_listener_token_not_validated_counterexample :
    check_citations cfgNoToken (.str "Roe v. Wade, 410 U.S. 113 (1973)") (some 5)
      extract403 = ⟨.ok [("410 U.S. 113", some 7, none)], 1, 1, 1⟩ := by rfl

/-- Claim C9 (amended): only the OpenAI API key is validated at first
use — with it absent the pipeline raises a `ValueError` naming
`OPENAI_API_KEY` before any worker or external call.  The Court Listener
token is never validated at call time: with it absent (and the key set)
the metadata lookup still performs at least one HTTP request, sending
the `Authorization` header built from the empty token, and returns
normally rather than raising.  `Config.validate` would raise the
descriptive error naming `COURT_LISTENER_TOKEN`, but nothing in the
pipeline invokes it. -/
theorem credential_validation_at_first_use (cfg cfg2 : CoreConfig)
    (hkey : cfg.openai_api_key = "") (s : String) (hs : isBlank s = false)
    (batchArg : Option Nat) (extract : String → List (CitEnv β γ))
    (hne : (extract s).isEmpty = false)
    (hkey2 : cfg2.openai_api_key ≠ "") (htok : cfg2.court_listener_token = "")
    (c : String) (hc : isBlank c = false) (m : Nat) (hm : 1 ≤ m)
    (events : Nat → HttpEvent γ) :
    check_citations cfg (.str s) batchArg extract =
      ⟨.error (.valueError "OPENAI_API_KEY environment variable is required"),
        0, 0, 0⟩
    ∧ cfg2.validate =
        .error (.valueError "COURT_LISTENER_TOKEN environment variable is required")
    ∧ (∃ o, (fetch_case_data_from_court_listener cfg2 (.str c) (some m)
        events).result = .ok o)
    ∧ 1 ≤ (fetch_case_data_from_court_listener cfg2 (.str c) (some m) events).calls
    ∧ (fetch_case_data_from_court_listener cfg2 (.str c) (some m) events).authHeader =
        some "Token " := by
  refine ⟨?_, ?_, ?_, ?_, ?_⟩
  · simp only [check_citations]
    rw [if_neg (by rw [hs]; exact Bool.false_ne_true)]
    rw [if_neg (by rw [hne]; exact Bool.false_ne_true)]
    have hcl : get_openai_client cfg =
        .error (.valueError "OPENAI_API_KEY environment variable is required") := by
      unfold get_openai_client
      rw [if_pos hkey]
    rw [hcl]
  · unfold CoreConfig.validate
    rw [if_neg hkey2, if_pos htok]
  · rw [fetch_valid_unfold cfg2 c hc m events]
    exact ⟨(fetchLoop events m 0 m).result, rfl⟩
  · rw [fetch_valid_unfold cfg2 c hc m events]
    exact fetchLoop_calls_pos events m 0 m hm
  · rw [fetch_valid_unfold cfg2 c hc m events, htok]
    show some ("Token " ++ "") = some "Token "
    decide

theorem credential_validation_at_first_use_witness :
    cfgNoKey.openai_api_key = "" ∧ isBlank "some text" = false
    ∧ (extract403 "some text").isEmpty = false
    ∧ cfgNoToken.openai_api_key ≠ "" ∧ cfgNoToken.court_listener_token = ""
    ∧ isBlank "410 U.S. 113" = false ∧ 1 ≤ 3
    ∧ (check_citations cfgNoKey (.str "some text") (some 5) extract403 =
        ⟨.error (.valueError "OPENAI_API_KEY environment variable is required"),
          0, 0, 0⟩
      ∧ cfgNoToken.validate =
          .error (.valueError "COURT_LISTENER_TOKEN environment variable is required")
      ∧ (∃ o, (fetch_case_data_from_court_listener cfgNoToken (.str "410 U.S. 113")
          (some 3) events404).result = .ok o)
      ∧ 1 ≤ (fetch_case_data_from_court_listener cfgNoToken (.str "410 U.S. 113")
          (some 3) events404).calls
      ∧ (fetch_case_data_from_court_listener cfgNoToken (.str "410 U.S. 113")
          (some 3) events404).authHeader = some "Token ") :=
  ⟨rfl, rfl, rfl, by decide, rfl, rfl, by omega,
    credential_validation_at_first_use cfgNoKey cfgNoToken rfl "some text" rfl
      (some 5) extract403 rfl (by decide) rfl "410 U.S. 113" rfl 3 (by omega)
      events404⟩

end Bluebook
